import Mathlib

/-!
Shallow embedding of the recipe storage layer
(`src/recipe_app_backend/app/storage.py`) of the recipe-explorer backend.

Strings are modelled as lists of characters (`Str`), recipes and the
persisted store document as Lean structures mirroring the JSON dictionaries
the Python module manipulates.  Each storage operation becomes a pure Lean
function on the store document: file persistence is modelled by returning
the new document, and the JSON file itself is modelled explicitly (a
`FileState` plus encode/decode between documents and JSON values) for
the read/write round-trip and corruption-recovery claims.  Wall-clock
reads (`int(time.time())`) become an explicit `now` parameter.
-/

namespace RecipeStore

/-- Strings, modelled as lists of characters. -/
abbrev Str := List Char

/-- Python `s.lower()`, character-wise lowercasing. -/
def lowerStr (s : Str) : Str := s.map Char.toLower

/-- Python substring test `needle in hay`. -/
def isSubstr (needle hay : Str) : Bool :=
  (List.range (hay.length + 1)).any fun i => needle.isPrefixOf (hay.drop i)

/-- A recipe record with all fields present, as produced by
`_normalize_recipe` (storage.py lines 41-51): every stored recipe carries
exactly these keys.  On a record that already has all keys,
`_normalize_recipe`'s `setdefault` calls are the identity. -/
structure Recipe where
  id : Int
  title : Str
  description : Str
  ingredients : List Str
  instructions : Str
  tags : List Str
  created_at : Int
  updated_at : Int
deriving DecidableEq, Repr

/-- The persisted store document `{recipes: [...], next_id: n}`. -/
structure Doc where
  recipes : List Recipe
  next_id : Int
deriving DecidableEq, Repr

/-- The default document `{recipes: [], next_id: 1}` returned by
`_read_file` for an absent or invalid file (storage.py lines 22, 27, 30). -/
def defaultDoc : Doc := { recipes := [], next_id := 1 }

/-- Input to `create_recipe`: a partial recipe dictionary; `none` models an
absent key, which `_normalize_recipe` fills with the default
(empty string / empty list).  The `id`, `created_at` and `updated_at`
keys are unconditionally overwritten by `create_recipe` itself
(storage.py lines 115-118), so they are not part of the input model. -/
structure RecipeInput where
  title : Option Str := none
  description : Option Str := none
  ingredients : Option (List Str) := none
  instructions : Option Str := none
  tags : Option (List Str) := none
deriving Repr

/-- `create_recipe` (storage.py lines 110-122): normalize the input,
assign `id := next_id`, stamp both timestamps with `now`, append, set
`next_id := id + 1`.  Returns the created recipe and the persisted
document. -/
def createRecipe (d : Doc) (r : RecipeInput) (now : Int) : Recipe × Doc :=
  let newRecipe : Recipe :=
    { id := d.next_id
      title := r.title.getD []
      description := r.description.getD []
      ingredients := r.ingredients.getD []
      instructions := r.instructions.getD []
      tags := r.tags.getD []
      created_at := now
      updated_at := now }
  (newRecipe, { recipes := d.recipes ++ [newRecipe], next_id := d.next_id + 1 })

/-- The store-document invariant from the spec: recipe ids are pairwise
distinct and `next_id` strictly exceeds every id present. -/
def docInv (d : Doc) : Prop :=
  (d.recipes.map (·.id)).Nodup ∧ ∀ r ∈ d.recipes, r.id < d.next_id

instance (d : Doc) : Decidable (docInv d) := by
  unfold docInv; infer_instance

/-- Run a sequence of `create_recipe` calls (each with its input and its
observed clock value) against a starting document. -/
def applyCreates (d : Doc) (calls : List (RecipeInput × Int)) : Doc :=
  calls.foldl (fun acc c => (createRecipe acc c.1 c.2).2) d

/-- The query-filter predicate of `list_recipes` (storage.py lines 64-68):
`ql` (the already-lowercased query) occurs in the lowercased title or in
some lowercased ingredient. -/
def qMatch (ql : Str) (r : Recipe) : Bool :=
  isSubstr ql (lowerStr r.title) || r.ingredients.any fun ing => isSubstr ql (lowerStr ing)

/-- The ingredient-filter predicate of `list_recipes` (storage.py lines
72-75): `il` (the already-lowercased ingredient filter) occurs in some
lowercased ingredient. -/
def ingMatch (il : Str) (r : Recipe) : Bool :=
  r.ingredients.any fun ing => isSubstr il (lowerStr ing)

/-- The filtering stage of `list_recipes` (storage.py lines 61-75):
`if q:` filter by `qMatch`, then `if ingredient:` filter by `ingMatch`.
A `none` or empty string is falsy in Python, so it disables the filter. -/
def filterRecipes (q ingredient : Option Str) (rs : List Recipe) : List Recipe :=
  let rs1 :=
    match q with
    | some s => if s ≠ [] then rs.filter (qMatch (lowerStr s)) else rs
    | none => rs
  match ingredient with
  | some s => if s ≠ [] then rs1.filter (ingMatch (lowerStr s)) else rs1
  | none => rs1

/-- The `meta` dictionary returned by `list_recipes`
(storage.py lines 85-94). -/
structure MetaInfo where
  total : Nat
  total_pages : Nat
  first_page : Nat
  last_page : Nat
  page : Nat
  previous_page : Option Nat
  next_page : Option Nat
  page_size : Nat
deriving DecidableEq, Repr

/-- `list_recipes` (storage.py lines 55-95) applied to the document's
recipe list: filter, clamp `page` to `≥ 1` and `page_size` into
`[1, 100]`, slice `[start, start + page_size)`, and build `meta`.
The raw `page`/`page_size` arguments are arbitrary integers; the clamped
values are nonnegative, so Python's slice behaves as drop/take. -/
def listRecipes (rs : List Recipe) (q ingredient : Option Str)
    (page page_size : Int) : List Recipe × MetaInfo :=
  let recipes := filterRecipes q ingredient rs
  let total := recipes.length
  let p : Nat := (max 1 page).toNat
  let ps : Nat := (min (max 1 page_size) 100).toNat
  let start := (p - 1) * ps
  let items := (recipes.drop start).take ps
  let total_pages := if ps ≠ 0 then (total + ps - 1) / ps else 1
  (items,
   { total := total
     total_pages := total_pages
     first_page := 1
     last_page := if total_pages > 0 then total_pages else 1
     page := p
     previous_page := if p > 1 then some (p - 1) else none
     next_page := if start + ps < total then some (p + 1) else none
     page_size := ps })

/-- `get_recipe` (storage.py lines 99-106): first recipe with the given
id, if any. -/
def getRecipe (rs : List Recipe) (recipe_id : Int) : Option Recipe :=
  rs.find? fun r => r.id = recipe_id

/-- Update payload for `update_recipe`: `none` models an absent key.
`update_recipe` only merges the whitelisted keys `title, description,
ingredients, instructions, tags` (storage.py line 132); any other key in
the request dictionary is discarded by the comprehension filter, so it is
not part of the model. -/
structure RecipeUpdate where
  title : Option Str := none
  description : Option Str := none
  ingredients : Option (List Str) := none
  instructions : Option Str := none
  tags : Option (List Str) := none
deriving Repr

/-- The merge performed on the matched recipe by `update_recipe`
(storage.py lines 132-134): overwrite each whitelisted key that is
present in the update, restamp `updated_at := now`; `id` and
`created_at` are not touched (`_normalize_recipe` on a full record is
the identity on existing keys). -/
def applyUpdate (r : Recipe) (u : RecipeUpdate) (now : Int) : Recipe :=
  { r with
    title := u.title.getD r.title
    description := u.description.getD r.description
    ingredients := u.ingredients.getD r.ingredients
    instructions := u.instructions.getD r.instructions
    tags := u.tags.getD r.tags
    updated_at := now }

/-- The indexed scan of `update_recipe` (storage.py lines 130-137):
replace the first recipe whose id matches and stop; recipes after the
match, and all recipes when nothing matches, are untouched. -/
def updateList (rs : List Recipe) (recipe_id : Int) (u : RecipeUpdate)
    (now : Int) : Option Recipe × List Recipe :=
  match rs with
  | [] => (none, [])
  | r :: rest =>
    if r.id = recipe_id then
      let r' := applyUpdate r u now
      (some r', r' :: rest)
    else
      let (res, rest') := updateList rest recipe_id u now
      (res, r :: rest')

/-- `update_recipe` (storage.py lines 126-137): returns the updated
recipe (or `none`) and the resulting stored document.  When nothing
matches, the file is not rewritten; the scan leaves the list equal to the
original, so the stored document is unchanged. -/
def updateRecipe (d : Doc) (recipe_id : Int) (u : RecipeUpdate)
    (now : Int) : Option Recipe × Doc :=
  let (res, rs') := updateList d.recipes recipe_id u now
  (res, { d with recipes := rs' })

/-- `delete_recipe` (storage.py lines 141-150): drop every recipe whose
id matches; persist (and return `true`) only when the list shrank,
otherwise leave the stored document untouched and return `false`. -/
def deleteRecipe (d : Doc) (recipe_id : Int) : Bool × Doc :=
  let rest := d.recipes.filter fun r => r.id ≠ recipe_id
  if rest.length < d.recipes.length then (true, { d with recipes := rest })
  else (false, d)

/-- A session record `{user_id, name, created_at}`
(storage.py line 163). -/
structure SessionRec where
  user_id : Str
  name : Str
  created_at : Nat
deriving DecidableEq, Repr

/-- The in-memory session dictionary `_sessions`, modelled as a finite
map from token strings to records (Python `dict` key semantics). -/
def Sessions := Str → Option SessionRec

/-- The token string `f"token_\x7buser_id\x7d_\x7bint(time.time())\x7d"`
built by `create_session` (storage.py line 161). -/
def mkToken (user_id : Str) (t : Nat) : Str :=
  "token_".data ++ user_id ++ "_".data ++ Nat.toDigits 10 t

/-- `create_session` (storage.py lines 159-164): build the token from the
user id and the current integer second `t`, store the record under it
(overwriting any record already present at that key), return the token. -/
def createSession (s : Sessions) (user_id user_name : Str) (t : Nat) :
    Str × Sessions :=
  let token := mkToken user_id t
  (token,
   fun k => if k = token
     then some { user_id := user_id, name := user_name, created_at := t }
     else s k)

/-- `get_session` (storage.py lines 168-171): `_sessions.get(token)`. -/
def getSession (s : Sessions) (token : Str) : Option SessionRec :=
  s token

/-- `delete_session` (storage.py lines 175-178):
`_sessions.pop(token, None)`, a no-op when the token is absent. -/
def deleteSession (s : Sessions) (token : Str) : Sessions :=
  fun k => if k = token then none else s k

/-- JSON values as produced by Python's `json.load`: `None`, booleans,
integers, strings, lists and string-keyed dictionaries.  (Floats never
occur in documents this program writes.) -/
inductive Json where
  | null
  | bool (b : Bool)
  | int (n : Int)
  | str (s : Str)
  | arr (xs : List Json)
  | obj (fields : List (Str × Json))

/-- Python `x == k` for a JSON value `x` and a string `k`: true exactly
for an equal string (equality between a string and any other JSON type is
`False`). -/
def Json.isStrEq (j : Json) (k : Str) : Bool :=
  match j with
  | .str s => s = k
  | _ => false

/-- Python `k in data` for a parsed JSON value: key membership for a
dictionary, element membership for a list, substring for a string, and a
`TypeError` (modelled as `none`) for `None`/booleans/numbers — inside
`_read_file`'s `try` block every such error is caught and yields the
default document. -/
def hasKeyLike (j : Json) (k : Str) : Option Bool :=
  match j with
  | .obj fields => some (fields.any fun f => f.1 = k)
  | .arr xs => some (xs.any fun x => x.isStrEq k)
  | .str s => some (isSubstr k s)
  | .null => none
  | .bool _ => none
  | .int _ => none

/-- The state of the store file: absent, present but not decodable as
JSON (unreadable bytes or malformed encoding), or successfully parsed. -/
inductive FileState where
  | missing
  | undecodable
  | parsed (j : Json)

/-- The default document as the JSON value `_read_file` returns for it. -/
def defaultDocJson : Json :=
  .obj [("recipes".data, .arr []), ("next_id".data, .int 1)]

/-- `_read_file` (storage.py lines 19-30): missing file, parse failure,
or a parsed value for which the `"recipes"`/`"next_id"` key checks fail
(including a `TypeError` from `in` on a non-container) all yield the
default document; otherwise the parsed value is returned as-is.  The
`or` short-circuits exactly as in Python. -/
def readFileJson : FileState → Json
  | .missing => defaultDocJson
  | .undecodable => defaultDocJson
  | .parsed j =>
    match hasKeyLike j "recipes".data with
    | none => defaultDocJson
    | some false => defaultDocJson
    | some true =>
      match hasKeyLike j "next_id".data with
      | none => defaultDocJson
      | some false => defaultDocJson
      | some true => j

/-- Dictionary lookup `data[k]` on a JSON object (first binding wins;
Python dictionaries have unique keys). -/
def Json.getField (j : Json) (k : Str) : Option Json :=
  match j with
  | .obj fields => (fields.find? fun f => f.1 = k).map (·.2)
  | _ => none

/-- Read a JSON value as an integer. -/
def Json.asInt : Json → Option Int
  | .int n => some n
  | _ => none

/-- Read a JSON value as a string. -/
def Json.asStr : Json → Option Str
  | .str s => some s
  | _ => none

/-- Read a JSON value as a list of strings. -/
def Json.asStrList : Json → Option (List Str)
  | .arr xs => xs.mapM Json.asStr
  | _ => none

/-- Serialization of one recipe record to JSON, mirroring the key set
`json.dump` writes for a normalized recipe dictionary. -/
def encodeRecipe (r : Recipe) : Json :=
  .obj [("id".data, .int r.id),
        ("title".data, .str r.title),
        ("description".data, .str r.description),
        ("ingredients".data, .arr (r.ingredients.map .str)),
        ("instructions".data, .str r.instructions),
        ("tags".data, .arr (r.tags.map .str)),
        ("created_at".data, .int r.created_at),
        ("updated_at".data, .int r.updated_at)]

/-- Serialization of a store document to JSON. -/
def encodeDoc (d : Doc) : Json :=
  .obj [("recipes".data, .arr (d.recipes.map encodeRecipe)),
        ("next_id".data, .int d.next_id)]

/-- Decoding of one recipe record from JSON (reading each key of the
persisted layout). -/
def decodeRecipe (j : Json) : Option Recipe := do
  let id ← (j.getField "id".data).bind Json.asInt
  let title ← (j.getField "title".data).bind Json.asStr
  let description ← (j.getField "description".data).bind Json.asStr
  let ingredients ← (j.getField "ingredients".data).bind Json.asStrList
  let instructions ← (j.getField "instructions".data).bind Json.asStr
  let tags ← (j.getField "tags".data).bind Json.asStrList
  let created_at ← (j.getField "created_at".data).bind Json.asInt
  let updated_at ← (j.getField "updated_at".data).bind Json.asInt
  pure { id := id, title := title, description := description,
         ingredients := ingredients, instructions := instructions,
         tags := tags, created_at := created_at, updated_at := updated_at }

/-- Decoding of a store document from JSON. -/
def decodeDoc (j : Json) : Option Doc := do
  let rsj ← j.getField "recipes".data
  let rs ← match rsj with
    | .arr xs => xs.mapM decodeRecipe
    | _ => none
  let nid ← (j.getField "next_id".data).bind Json.asInt
  pure { recipes := rs, next_id := nid }

/-- `_write_file` (storage.py lines 33-38): serialize the document and
atomically replace the file with it.  Text-level `json.dump`/`json.load`
round-tripping is modelled as the identity on JSON values. -/
def writeFile (d : Doc) : FileState :=
  .parsed (encodeDoc d)

/-- The sample recipe of the spec's filter-correctness property:
title `"Tomato Soup"`, ingredients `["tomato", "basil"]`. -/
def tomatoSoup : Recipe :=
  { id := 1
    title := "Tomato Soup".data
    description := []
    ingredients := ["tomato".data, "basil".data]
    instructions := []
    tags := []
    created_at := 0
    updated_at := 0 }

/-! ## Theorems -/

lemma createRecipe_preserves_inv (d : Doc) (r : RecipeInput) (now : Int)
    (h : docInv d) : docInv (createRecipe d r now).2 := by
  obtain ⟨hnd, hlt⟩ := h
  constructor
  · simp only [createRecipe, List.map_append, List.map_cons, List.map_nil]
    rw [List.nodup_append]
    refine ⟨hnd, List.nodup_singleton _, ?_⟩
    intro x hx hx2
    simp only [List.mem_map] at hx
    obtain ⟨a, ha, rfl⟩ := hx
    simp only [List.mem_singleton] at hx2
    have := hlt a ha
    omega
  · intro a ha
    simp only [createRecipe, List.mem_append, List.mem_singleton] at ha ⊢
    rcases ha with ha | rfl
    · have := hlt a ha; omega
    · simp

lemma applyCreates_preserves_inv (calls : List (RecipeInput × Int)) :
    ∀ d : Doc, docInv d → docInv (applyCreates d calls) := by
  induction calls with
  | nil => intro d h; exact h
  | cons c rest ih =>
    intro d h
    exact ih _ (createRecipe_preserves_inv d c.1 c.2 h)

/-- C1. Every document reachable from the default document
`{recipes: [], next_id: 1}` by a sequence of `create_recipe` calls has
pairwise-distinct recipe ids with `next_id` strictly greater than every
id present; moreover `create_recipe` assigns the new recipe's id from the
document's `next_id` and sets `next_id` to that id plus one. -/
theorem create_invariant (calls : List (RecipeInput × Int)) :
    docInv (applyCreates defaultDoc calls) ∧
    ∀ (d : Doc) (r : RecipeInput) (now : Int),
      (createRecipe d r now).1.id = d.next_id ∧
      (createRecipe d r now).2.next_id = (createRecipe d r now).1.id + 1 := by
  refine ⟨applyCreates_preserves_inv calls defaultDoc ?_, ?_⟩
  · constructor
    · simp [defaultDoc]
    · intro r hr; simp [defaultDoc] at hr
  · intro d r now
    exact ⟨rfl, rfl⟩

/-- C2. For `page ≥ 1` and `page_size ∈ [1, 100]`, `list_recipes`
paginates the filtered sequence in order: `items` is the slice
`[(page-1)*page_size, page*page_size)`, `total` is the filtered count,
`total_pages = ceil(total / page_size)`, `first_page = 1`,
`last_page = max(total_pages, 1)`, `previous_page = page - 1` (none when
`page = 1`) and `next_page = page + 1` (none when the slice end reaches
`total`); with 25 recipes and page size 10, page 1 yields 10 items with
`next_page = 2` and no `previous_page`, page 3 yields 5 items with
`previous_page = 2` and no `next_page`, and `total_pages = 3`. -/
theorem listRecipes_pagination (rs : List Recipe) (q ing : Option Str)
    (page page_size : Int)
    (hp : 1 ≤ page) (hps1 : 1 ≤ page_size) (hps2 : page_size ≤ 100) :
    ((listRecipes rs q ing page page_size).1
      = ((filterRecipes q ing rs).drop ((page.toNat - 1) * page_size.toNat)).take
          page_size.toNat ∧
     (listRecipes rs q ing page page_size).2.total = (filterRecipes q ing rs).length ∧
     (listRecipes rs q ing page page_size).2.total_pages
       = (filterRecipes q ing rs).length ⌈/⌉ page_size.toNat ∧
     (listRecipes rs q ing page page_size).2.first_page = 1 ∧
     (listRecipes rs q ing page page_size).2.last_page
       = max ((listRecipes rs q ing page page_size).2.total_pages) 1 ∧
     (listRecipes rs q ing page page_size).2.page = page.toNat ∧
     (listRecipes rs q ing page page_size).2.page_size = page_size.toNat ∧
     (listRecipes rs q ing page page_size).2.previous_page
       = (if page = 1 then none else some (page.toNat - 1)) ∧
     (listRecipes rs q ing page page_size).2.next_page
       = (if (page.toNat - 1) * page_size.toNat + page_size.toNat
            < (filterRecipes q ing rs).length
          then some (page.toNat + 1) else none)) ∧
    ∀ rs' : List Recipe, rs'.length = 25 →
      (listRecipes rs' none none 1 10).1.length = 10 ∧
      (listRecipes rs' none none 1 10).2.next_page = some 2 ∧
      (listRecipes rs' none none 1 10).2.previous_page = none ∧
      (listRecipes rs' none none 3 10).1.length = 5 ∧
      (listRecipes rs' none none 3 10).2.previous_page = some 2 ∧
      (listRecipes rs' none none 3 10).2.next_page = none ∧
      (listRecipes rs' none none 1 10).2.total_pages = 3 := by
  have hmax : max 1 page = page := max_eq_right hp
  have hclamp : min (max 1 page_size) 100 = page_size := by
    rw [max_eq_right hps1]; exact min_eq_left hps2
  have hps0 : page_size.toNat ≠ 0 := by omega
  constructor
  · refine ⟨?_, ?_, ?_, ?_, ?_, ?_, ?_, ?_, ?_⟩
    · simp only [listRecipes, hmax, hclamp]
    · simp only [listRecipes, hmax, hclamp]
    · simp only [listRecipes, hmax, hclamp]
      rw [Nat.ceilDiv_eq_add_pred_div, if_pos hps0]
    · simp only [listRecipes, hmax, hclamp]
    · simp only [listRecipes, hmax, hclamp, if_pos hps0]
      generalize ((filterRecipes q ing rs).length + page_size.toNat - 1)
        / page_size.toNat = t
      rcases Nat.eq_zero_or_pos t with h | h
      · simp [h]
      · rw [if_pos h, Nat.max_eq_left h]
    · simp only [listRecipes, hmax, hclamp]
    · simp only [listRecipes, hmax, hclamp]
    · simp only [listRecipes, hmax, hclamp]
      by_cases h1 : page = 1
      · simp [h1]
      · have hlt : 1 < page.toNat := by omega
        rw [if_pos hlt, if_neg h1]
    · simp only [listRecipes, hmax, hclamp]
  · intro rs' h25
    refine ⟨?_, ?_, ?_, ?_, ?_, ?_, ?_⟩ <;>
      simp [listRecipes, filterRecipes, List.length_take, List.length_drop, h25]

/-- Witness for C2 at a concrete input: a store of 25 concrete recipes,
page 1 and page size 10. -/
theorem listRecipes_pagination_witness :
    (1 : Int) ≤ 1 ∧ (1 : Int) ≤ 10 ∧ (10 : Int) ≤ 100 ∧
    (List.replicate 25 tomatoSoup).length = 25 ∧
    ((listRecipes (List.replicate 25 tomatoSoup) none none 1 10).1.length = 10 ∧
     (listRecipes (List.replicate 25 tomatoSoup) none none 1 10).2.next_page = some 2 ∧
     (listRecipes (List.replicate 25 tomatoSoup) none none 1 10).2.previous_page = none ∧
     (listRecipes (List.replicate 25 tomatoSoup) none none 3 10).1.length = 5 ∧
     (listRecipes (List.replicate 25 tomatoSoup) none none 3 10).2.previous_page = some 2 ∧
     (listRecipes (List.replicate 25 tomatoSoup) none none 3 10).2.next_page = none ∧
     (listRecipes (List.replicate 25 tomatoSoup) none none 1 10).2.total_pages = 3) :=
  ⟨by norm_num, by norm_num, by norm_num, by simp,
   (listRecipes_pagination [] none none 1 1 (by norm_num) (by norm_num)
       (by norm_num)).2
     (List.replicate 25 tomatoSoup) (by simp)⟩

lemma filter_filter_and {α : Type} (p q : α → Bool) (l : List α) :
    (l.filter p).filter q = l.filter fun a => p a && q a := by
  induction l with
  | nil => rfl
  | cons x xs ih =>
    by_cases hp : p x <;> by_cases hq : q x <;>
      simp [List.filter_cons, hp, hq, ih]

/-- C3. With a non-empty query `s` and non-empty ingredient filter
`t`, `list_recipes` keeps exactly the recipes matched by the
case-insensitive query predicate (title or some ingredient contains `s`)
and the ingredient predicate (some ingredient contains `t`), applied
conjunctively; with only the query, exactly the query predicate.  In
particular the `"Tomato Soup"` sample recipe is kept for `q = "tomato"`
with `ingredient = "basil"`, and dropped for `q = "pasta"`. -/
theorem listRecipes_filter_semantics (rs : List Recipe) (s t : Str)
    (hs : s ≠ []) (ht : t ≠ []) :
    filterRecipes (some s) (some t) rs
      = rs.filter (fun r => qMatch (lowerStr s) r && ingMatch (lowerStr t) r) ∧
    filterRecipes (some s) none rs = rs.filter (qMatch (lowerStr s)) ∧
    filterRecipes (some "tomato".data) (some "basil".data) [tomatoSoup]
      = [tomatoSoup] ∧
    filterRecipes (some "pasta".data) none [tomatoSoup] = [] := by
  refine ⟨?_, ?_, by decide, by decide⟩
  · simp only [filterRecipes, if_pos hs, if_pos ht]
    exact filter_filter_and _ _ rs
  · simp only [filterRecipes, if_pos hs]

/-- Witness for C3 at a concrete input: query `"tomato"`, ingredient
`"basil"`, store `[tomatoSoup]`. -/
theorem listRecipes_filter_semantics_witness :
    "tomato".data ≠ ([] : Str) ∧ "basil".data ≠ ([] : Str) ∧
    (filterRecipes (some "tomato".data) (some "basil".data) [tomatoSoup]
       = [tomatoSoup].filter (fun r =>
           qMatch (lowerStr "tomato".data) r && ingMatch (lowerStr "basil".data) r) ∧
     filterRecipes (some "tomato".data) none [tomatoSoup]
       = [tomatoSoup].filter (qMatch (lowerStr "tomato".data)) ∧
     filterRecipes (some "tomato".data) (some "basil".data) [tomatoSoup]
       = [tomatoSoup] ∧
     filterRecipes (some "pasta".data) none [tomatoSoup] = []) :=
  ⟨by decide, by decide,
   listRecipes_filter_semantics [tomatoSoup] "tomato".data "basil".data
     (by decide) (by decide)⟩

/-- C4. `list_recipes` accepts every integer `page` and `page_size`:
`page` is clamped to at least 1 and `page_size` into `[1, 100]`, the
clamped values are reported back in `meta.page` and `meta.page_size`, and
the returned items are the slice computed from those clamped values. -/
theorem listRecipes_clamping (rs : List Recipe) (q ing : Option Str)
    (page page_size : Int) :
    (listRecipes rs q ing page page_size).2.page = (max 1 page).toNat ∧
    (listRecipes rs q ing page page_size).2.page_size
      = (min (max 1 page_size) 100).toNat ∧
    1 ≤ (listRecipes rs q ing page page_size).2.page ∧
    1 ≤ (listRecipes rs q ing page page_size).2.page_size ∧
    (listRecipes rs q ing page page_size).2.page_size ≤ 100 ∧
    (listRecipes rs q ing page page_size).1
      = ((filterRecipes q ing rs).drop
          (((listRecipes rs q ing page page_size).2.page - 1)
            * (listRecipes rs q ing page page_size).2.page_size)).take
          (listRecipes rs q ing page page_size).2.page_size := by
  have h1 : (1 : Int) ≤ max 1 page := le_max_left _ _
  have h2 : (1 : Int) ≤ min (max 1 page_size) 100 :=
    le_min (le_max_left _ _) (by norm_num)
  have h3 : min (max 1 page_size) 100 ≤ 100 := min_le_right _ _
  refine ⟨rfl, rfl, by simp only [listRecipes]; omega,
    by simp only [listRecipes]; omega, by simp only [listRecipes]; omega, rfl⟩

lemma updateList_not_found (rs : List Recipe) (rid : Int) (u : RecipeUpdate)
    (now : Int) (h : ∀ r ∈ rs, r.id ≠ rid) :
    updateList rs rid u now = (none, rs) := by
  induction rs with
  | nil => rfl
  | cons r rest ih =>
    have hr : r.id ≠ rid := h r (List.mem_cons_self r rest)
    simp only [updateList, if_neg hr]
    rw [ih fun a ha => h a (List.mem_cons_of_mem r ha)]

lemma updateList_found (pre : List Recipe) (r : Recipe) (post : List Recipe)
    (rid : Int) (u : RecipeUpdate) (now : Int)
    (hr : r.id = rid) (hpre : ∀ a ∈ pre, a.id ≠ rid) :
    updateList (pre ++ r :: post) rid u now
      = (some (applyUpdate r u now), pre ++ applyUpdate r u now :: post) := by
  induction pre with
  | nil => simp [updateList, hr]
  | cons x xs ih =>
    have hx : x.id ≠ rid := hpre x (List.mem_cons_self x xs)
    simp only [List.cons_append, updateList, if_neg hx, List.append_eq]
    rw [ih fun a ha => hpre a (List.mem_cons_of_mem x ha)]

/-- C5. `update_recipe` with an id absent from the document returns
the not-found result and leaves the stored document unchanged; on the
document `pre ++ r :: post` whose first recipe with the given id is `r`,
it replaces exactly `r` by the merge of the whitelisted present update
fields, leaving `pre` and `post` (and `next_id`) unchanged, and the
merged recipe keeps `r`'s `id` and `created_at`, gets `updated_at = now`,
and takes each whitelisted field from the update when present and from
`r` otherwise. -/
theorem updateRecipe_frame (d : Doc) (rid : Int) (u : RecipeUpdate) (now : Int) :
    ((∀ r ∈ d.recipes, r.id ≠ rid) → updateRecipe d rid u now = (none, d)) ∧
    (∀ pre r post, d.recipes = pre ++ r :: post → r.id = rid →
      (∀ a ∈ pre, a.id ≠ rid) →
      updateRecipe d rid u now
        = (some (applyUpdate r u now),
           { d with recipes := pre ++ applyUpdate r u now :: post }) ∧
      (applyUpdate r u now).id = r.id ∧
      (applyUpdate r u now).created_at = r.created_at ∧
      (applyUpdate r u now).updated_at = now ∧
      (applyUpdate r u now).title = u.title.getD r.title ∧
      (applyUpdate r u now).description = u.description.getD r.description ∧
      (applyUpdate r u now).ingredients = u.ingredients.getD r.ingredients ∧
      (applyUpdate r u now).instructions = u.instructions.getD r.instructions ∧
      (applyUpdate r u now).tags = u.tags.getD r.tags) := by
  constructor
  · intro h
    simp only [updateRecipe, updateList_not_found d.recipes rid u now h]
  · intro pre r post hsplit hr hpre
    refine ⟨?_, rfl, rfl, rfl, rfl, rfl, rfl, rfl, rfl⟩
    simp only [updateRecipe, hsplit, updateList_found pre r post rid u now hr hpre]

/-- Witness for C5 at a concrete input: a one-recipe document, a title
update of the recipe with id 1, and a not-found update for id 99. -/
theorem updateRecipe_frame_witness :
    (tomatoSoup.id ≠ 99 ∧
     updateRecipe ⟨[tomatoSoup], 2⟩ 99 ⟨some "New".data, none, none, none, none⟩ 5
       = (none, ⟨[tomatoSoup], 2⟩)) ∧
    (([tomatoSoup] : List Recipe) = [] ++ tomatoSoup :: [] ∧ tomatoSoup.id = 1 ∧
     updateRecipe ⟨[tomatoSoup], 2⟩ 1 ⟨some "New".data, none, none, none, none⟩ 5
       = (some (applyUpdate tomatoSoup ⟨some "New".data, none, none, none, none⟩ 5),
          ⟨[] ++ applyUpdate tomatoSoup ⟨some "New".data, none, none, none, none⟩ 5 :: [],
           2⟩)) :=
  ⟨⟨by decide,
    (updateRecipe_frame ⟨[tomatoSoup], 2⟩ 99 ⟨some "New".data, none, none, none, none⟩ 5).1
      (by decide)⟩,
   rfl, rfl,
   ((updateRecipe_frame ⟨[tomatoSoup], 2⟩ 1 ⟨some "New".data, none, none, none, none⟩ 5).2
      [] tomatoSoup [] rfl rfl (by simp)).1⟩

lemma any_id_iff_filter_lt (rs : List Recipe) (rid : Int) :
    (rs.any fun r => r.id = rid) = true
      ↔ (rs.filter fun r => r.id ≠ rid).length < rs.length := by
  induction rs with
  | nil => simp
  | cons r rest ih =>
    by_cases hr : r.id = rid
    · simp [List.any_cons, List.filter_cons, hr]
      have := List.length_filter_le (fun r : Recipe => !decide (r.id = rid)) rest
      omega
    · simp [List.any_cons, List.filter_cons, hr, ih]

lemma filter_ne_eq_self_of_all (rs : List Recipe) (rid : Int)
    (h : ∀ r ∈ rs, r.id ≠ rid) : (rs.filter fun r => r.id ≠ rid) = rs := by
  apply List.filter_eq_self.mpr
  intro a ha
  simp [h a ha]

lemma deleteRecipe_fst_eq_any (d : Doc) (rid : Int) :
    (deleteRecipe d rid).1 = (d.recipes.any fun r => r.id = rid) := by
  by_cases hlt : ((d.recipes.filter fun r => r.id ≠ rid).length < d.recipes.length)
  · simp only [deleteRecipe, if_pos hlt]
    exact ((any_id_iff_filter_lt d.recipes rid).mpr hlt).symm
  · simp only [deleteRecipe, if_neg hlt]
    have : (d.recipes.any fun r => r.id = rid) = false := by
      rw [Bool.eq_false_iff]
      intro h
      exact hlt ((any_id_iff_filter_lt d.recipes rid).mp h)
    rw [this]

lemma deleteRecipe_snd_recipes (d : Doc) (rid : Int) :
    (deleteRecipe d rid).2.recipes = (d.recipes.filter fun r => r.id ≠ rid) := by
  by_cases hlt : ((d.recipes.filter fun r => r.id ≠ rid).length < d.recipes.length)
  · simp only [deleteRecipe, if_pos hlt]
  · simp only [deleteRecipe, if_neg hlt]
    have hall : ∀ r ∈ d.recipes, r.id ≠ rid := by
      intro r hrm hcontra
      apply hlt
      exact (any_id_iff_filter_lt d.recipes rid).mp
        (List.any_eq_true.mpr ⟨r, hrm, by simp [hcontra]⟩)
    exact (filter_ne_eq_self_of_all d.recipes rid hall).symm

/-- C6. `delete_recipe` removes exactly the recipes with the given
id, returns `true` exactly when at least one was removed, leaves the
stored document untouched when nothing matched, and a second delete of
the same id always returns `false`. -/
theorem deleteRecipe_spec (d : Doc) (rid : Int) :
    ((deleteRecipe d rid).1 = (d.recipes.any fun r => r.id = rid)) ∧
    (deleteRecipe d rid).2.recipes = (d.recipes.filter fun r => r.id ≠ rid) ∧
    (deleteRecipe d rid).2.next_id = d.next_id ∧
    ((∀ r ∈ d.recipes, r.id ≠ rid) → (deleteRecipe d rid).2 = d) ∧
    (deleteRecipe (deleteRecipe d rid).2 rid).1 = false := by
  refine ⟨deleteRecipe_fst_eq_any d rid, deleteRecipe_snd_recipes d rid, ?_, ?_, ?_⟩
  · by_cases hlt : ((d.recipes.filter fun r => r.id ≠ rid).length < d.recipes.length) <;>
      simp only [deleteRecipe, if_pos, if_neg, hlt, ite_true, ite_false]
  · intro h
    have hfix := filter_ne_eq_self_of_all d.recipes rid h
    simp only [deleteRecipe, hfix, lt_irrefl, ite_false]
  · rw [deleteRecipe_fst_eq_any]
    rw [Bool.eq_false_iff]
    intro hany
    obtain ⟨r, hrm, hr⟩ := List.any_eq_true.mp hany
    rw [deleteRecipe_snd_recipes] at hrm
    have := (List.mem_filter.mp hrm).2
    simp at this hr
    exact this hr

/-- Witness for C6 at a concrete input: deleting id 99 from a document
that only holds id 1 leaves it unchanged; deleting id 1 succeeds once and
fails the second time. -/
theorem deleteRecipe_spec_witness :
    tomatoSoup.id ≠ 99 ∧
    (deleteRecipe ⟨[tomatoSoup], 2⟩ 99).2 = ⟨[tomatoSoup], 2⟩ ∧
    ((deleteRecipe ⟨[tomatoSoup], 2⟩ 1).1
      = ((⟨[tomatoSoup], 2⟩ : Doc).recipes.any fun r => r.id = 1)) ∧
    (deleteRecipe (deleteRecipe ⟨[tomatoSoup], 2⟩ 1).2 1).1 = false :=
  ⟨by decide,
   (deleteRecipe_spec ⟨[tomatoSoup], 2⟩ 99).2.2.2.1 (by decide),
   (deleteRecipe_spec ⟨[tomatoSoup], 2⟩ 1).1,
   (deleteRecipe_spec ⟨[tomatoSoup], 2⟩ 1).2.2.2.2⟩

/-- C9. After `create_session`, `get_session` on the returned token
yields that user's record; after `delete_session` on the token,
`get_session` yields the not-found result; and `delete_session` on an
absent token leaves the registry unchanged (and signals nothing). -/
theorem session_lifecycle (s : Sessions) (u n : Str) (t : Nat) :
    getSession (createSession s u n t).2 (createSession s u n t).1
      = some { user_id := u, name := n, created_at := t } ∧
    getSession
      (deleteSession (createSession s u n t).2 (createSession s u n t).1)
      (createSession s u n t).1 = none ∧
    ∀ tok : Str, s tok = none → deleteSession s tok = s := by
  refine ⟨?_, ?_, ?_⟩
  · simp only [getSession, createSession, if_pos]
  · simp only [getSession, deleteSession, createSession, if_pos]
  · intro tok h
    funext k
    simp only [deleteSession]
    by_cases hk : k = tok
    · rw [if_pos hk, hk, h]
    · rw [if_neg hk]

/-- Witness for C9 at a concrete input: the empty registry, user
`"u"`/`"n"` at second 7, and the absent token `"absent"`. -/
theorem session_lifecycle_witness :
    ((fun _ : Str => (none : Option SessionRec)) "absent".data = none) ∧
    deleteSession (fun _ => none) "absent".data
      = (fun _ : Str => (none : Option SessionRec)) ∧
    getSession (createSession (fun _ => none) "u".data "n".data 7).2
        (createSession (fun _ => none) "u".data "n".data 7).1
      = some { user_id := "u".data, name := "n".data, created_at := 7 } :=
  ⟨rfl,
   (session_lifecycle (fun _ => none) "u".data "n".data 7).2.2 "absent".data rfl,
   (session_lifecycle (fun _ => none) "u".data "n".data 7).1⟩

/-- C10. The token built by `create_session` is a deterministic
function of the user id and the observed integer second: two calls with
the same user id and the same second return the same token
(`mkToken u t`), so the second call overwrites the first call's record —
the registry after the second call holds the second record at that token
and is unchanged at every other key. -/
theorem session_token_overwrite (s : Sessions) (u n1 n2 : Str) (t : Nat) :
    (createSession s u n1 t).1 = (createSession (createSession s u n1 t).2 u n2 t).1 ∧
    (createSession s u n1 t).1 = mkToken u t ∧
    (createSession (createSession s u n1 t).2 u n2 t).2 (createSession s u n1 t).1
      = some { user_id := u, name := n2, created_at := t } ∧
    ∀ k : Str, k ≠ (createSession s u n1 t).1 →
      (createSession (createSession s u n1 t).2 u n2 t).2 k
        = (createSession s u n1 t).2 k := by
  refine ⟨rfl, rfl, ?_, ?_⟩
  · simp only [createSession, if_pos]
  · intro k hk
    simp only [createSession] at hk ⊢
    rw [if_neg hk]

/-- Witness for C10 at a concrete input: two creates for user `"u"` at
second 7 on the empty registry, inspected at the unrelated key `"x"`. -/
theorem session_token_overwrite_witness :
    ("x".data ≠ (createSession (fun _ => none) "u".data "a".data 7).1) ∧
    (createSession (createSession (fun _ => none) "u".data "a".data 7).2
        "u".data "b".data 7).2 "x".data
      = (createSession (fun _ => (none : Option SessionRec)) "u".data "a".data 7).2
          "x".data ∧
    (createSession (fun _ => none) "u".data "a".data 7).1
      = (createSession (createSession (fun _ => none) "u".data "a".data 7).2
          "u".data "b".data 7).1 :=
  ⟨by decide,
   (session_token_overwrite (fun _ => none) "u".data "a".data "b".data 7).2.2.2
     "x".data (by decide),
   (session_token_overwrite (fun _ => none) "u".data "a".data "b".data 7).1⟩

/-- C7, amended (the original claim is refuted by
`readFile_recovery_counterexample`): `_read_file` returns the default
document `{recipes: [], next_id: 1}` — never raising — for a missing
file, for a file that does not decode as JSON, and for any decoded value
on which the Python membership checks `"recipes" in data` /
`"next_id" in data` do not both succeed; in particular for every decoded
dictionary lacking the `recipes` or the `next_id` key.  Over the default
document `list_recipes` yields an empty item list.  (A decoded
non-dictionary that passes both membership checks — a string or a list
containing the two names — is returned as-is even though it has no keys;
see the counterexample.) -/
theorem readFile_recovery :
    readFileJson .missing = defaultDocJson ∧
    readFileJson .undecodable = defaultDocJson ∧
    (∀ j : Json,
      ¬(hasKeyLike j "recipes".data = some true ∧
        hasKeyLike j "next_id".data = some true) →
      readFileJson (.parsed j) = defaultDocJson) ∧
    (∀ fields : List (Str × Json),
      ((∀ f ∈ fields, f.1 ≠ "recipes".data) ∨ (∀ f ∈ fields, f.1 ≠ "next_id".data)) →
      readFileJson (.parsed (.obj fields)) = defaultDocJson) ∧
    decodeDoc defaultDocJson = some defaultDoc ∧
    ∀ (q ing : Option Str) (page page_size : Int),
      (listRecipes defaultDoc.recipes q ing page page_size).1 = [] := by
  have hany : ∀ (k : Str) (fields : List (Str × Json)),
      (∀ f ∈ fields, f.1 ≠ k) → (fields.any fun f => f.1 = k) = false := by
    intro k fields hk
    rw [Bool.eq_false_iff]
    intro h
    obtain ⟨f, hfm, hfk⟩ := List.any_eq_true.mp h
    exact hk f hfm (by simpa using hfk)
  refine ⟨rfl, rfl, ?_, ?_, by rfl, ?_⟩
  · intro j hj
    rcases h1 : hasKeyLike j "recipes".data with _ | b1
    · simp [readFileJson, h1]
    · rcases b1 with _ | _
      · simp [readFileJson, h1]
      · rcases h2 : hasKeyLike j "next_id".data with _ | b2
        · simp [readFileJson, h1, h2]
        · rcases b2 with _ | _
          · simp [readFileJson, h1, h2]
          · exact absurd ⟨h1, h2⟩ hj
  · intro fields hf
    rcases hf with h | h
    · have hb := hany _ fields h
      simp [readFileJson, hasKeyLike, hb]
    · have hb2 := hany _ fields h
      rcases hb : (fields.any fun f => f.1 = "recipes".data) with _ | _
      · simp [readFileJson, hasKeyLike, hb]
      · simp [readFileJson, hasKeyLike, hb, hb2]
  · intro q ing page page_size
    rcases q with _ | s <;> rcases ing with _ | t <;>
      simp [listRecipes, filterRecipes, defaultDoc]

/-- Witness for C7 at concrete inputs: the parsed empty dictionary, a
parsed dictionary with only an unrelated key, and a missing file. -/
theorem readFile_recovery_witness :
    ¬(hasKeyLike (.obj []) "recipes".data = some true ∧
      hasKeyLike (.obj []) "next_id".data = some true) ∧
    readFileJson (.parsed (.obj [])) = defaultDocJson ∧
    readFileJson (.parsed (.obj [("foo".data, Json.int 0)])) = defaultDocJson ∧
    readFileJson .missing = defaultDocJson ∧
    (listRecipes defaultDoc.recipes (some "tomato".data) none 1 10).1 = [] :=
  ⟨by decide,
   readFile_recovery.2.2.1 (.obj []) (by decide),
   readFile_recovery.2.2.2.1 [("foo".data, Json.int 0)] (Or.inl (by decide)),
   readFile_recovery.1,
   readFile_recovery.2.2.2.2.2 (some "tomato".data) none 1 10⟩

/-- Counterexample refuting C7 as stated: the decoded JSON string
`"recipes, next_id"` and the decoded JSON list
`["recipes", "next_id"]` have no `recipes` or `next_id` key at all
(field lookup finds nothing), yet Python's `in` — substring search on a
string, element membership on a list — makes both checks succeed, so
`_read_file` returns the garbage value instead of the default document;
the value is not a valid store document (`decodeDoc` fails, mirroring
the `TypeError` that `list_recipes` then raises on `data["recipes"]`). -/
theorem readFile_recovery_counterexample :
    Json.getField (.str "recipes, next_id".data) "recipes".data = none ∧
    Json.getField (.str "recipes, next_id".data) "next_id".data = none ∧
    readFileJson (.parsed (.str "recipes, next_id".data))
      = .str "recipes, next_id".data ∧
    readFileJson (.parsed (.str "recipes, next_id".data)) ≠ defaultDocJson ∧
    decodeDoc (.str "recipes, next_id".data) = none ∧
    Json.getField (.arr [.str "recipes".data, .str "next_id".data]) "recipes".data
      = none ∧
    readFileJson (.parsed (.arr [.str "recipes".data, .str "next_id".data]))
      = .arr [.str "recipes".data, .str "next_id".data] ∧
    readFileJson (.parsed (.arr [.str "recipes".data, .str "next_id".data]))
      ≠ defaultDocJson ∧
    decodeDoc (.arr [.str "recipes".data, .str "next_id".data]) = none := by
  refine ⟨rfl, rfl, rfl, ?_, rfl, rfl, rfl, ?_, rfl⟩
  · intro h
    have h1 : readFileJson (.parsed (.str "recipes, next_id".data))
        = Json.str "recipes, next_id".data := rfl
    rw [h1, defaultDocJson] at h
    exact Json.noConfusion h
  · intro h
    have h1 : readFileJson (.parsed (.arr [.str "recipes".data, .str "next_id".data]))
        = Json.arr [.str "recipes".data, .str "next_id".data] := rfl
    rw [h1, defaultDocJson] at h
    exact Json.noConfusion h

lemma mapM_asStr (l : List Str) :
    (l.map Json.str).mapM Json.asStr = some l := by
  induction l with
  | nil => rfl
  | cons x xs ih => rw [List.map_cons, List.mapM_cons, Json.asStr, ih]; rfl

lemma decodeRecipe_encodeRecipe (r : Recipe) :
    decodeRecipe (encodeRecipe r) = some r := by
  show ((r.ingredients.map Json.str).mapM Json.asStr).bind
      (fun ingredients => ((r.tags.map Json.str).mapM Json.asStr).bind
        (fun tags =>
          some { id := r.id, title := r.title, description := r.description,
                 ingredients := ingredients, instructions := r.instructions,
                 tags := tags, created_at := r.created_at,
                 updated_at := r.updated_at })) = some r
  rw [mapM_asStr, mapM_asStr]
  rfl

lemma mapM_decodeRecipe (rs : List Recipe) :
    (rs.map encodeRecipe).mapM decodeRecipe = some rs := by
  induction rs with
  | nil => rfl
  | cons r rest ih =>
    rw [List.map_cons, List.mapM_cons, decodeRecipe_encodeRecipe, ih]
    rfl

/-- C8. Writing any store document and immediately reading it back
yields an identical document: the read returns exactly the written JSON
value, and decoding it restores the same recipe sequence (same values,
same order) and the same `next_id`. -/
theorem write_read_roundtrip (d : Doc) :
    readFileJson (writeFile d) = encodeDoc d ∧
    decodeDoc (encodeDoc d) = some d := by
  constructor
  · rfl
  · show ((d.recipes.map encodeRecipe).mapM decodeRecipe).bind
        (fun rs => some { recipes := rs, next_id := d.next_id }) = some d
    rw [mapM_decodeRecipe]
    rfl

end RecipeStore
